import Mathlib

/-
Verification of the `Body` / `Chunk` payload core (src/async_impl/body.rs).

The repository code is a thin dual-representation wrapper: a `Body` is either
`Inner::Reusable(Bytes)` (a buffered byte payload) or `Inner::Hyper(hyper::Body)`
(a streaming pull-source).  The external collaborators `hyper::Body`,
`hyper::Chunk` and `bytes::Bytes` are not part of this repository; they are
modelled from the spec at their interface boundary (a pull-source with a
three-outcome poll and a length hint; a byte buffer; a byte region with a
consume cursor).  Everything in the `Body` wrapper itself is translated
directly from the source.
-/

namespace ReqwestBody

/-- Byte buffers (`bytes::Bytes`): modelled as lists of bytes. -/
abbrev Bytes := List Nat

/-- Modelled from the spec: one scripted poll event of the external streaming
source (`hyper::Body`), specified only at its boundary — a poll either yields
an item, suspends ("not yet ready"), or reports a source failure. -/
inductive PollEvent
  | chunk (data : Bytes)
  | pending
  | fail (e : Nat)
  deriving DecidableEq, Repr

/-- Outcome of one poll of the external source:
`Ready(Some item)` / `Ready(None)` (end-of-data) / `NotReady` / `Err`. -/
inductive HyperPoll
  | ready (item : Option Bytes)
  | notReady
  | err (e : Nat)
  deriving DecidableEq, Repr

/-- Modelled from the spec: the external pull-source (`hyper::Body`), at its
interface boundary — a script of remaining poll events plus a length hint
(`content_length() -> Option<u64>`).  Once the script is exhausted the source
reports end-of-data on every further poll. -/
structure HyperBody where
  events : List PollEvent
  lengthHint : Option Nat
  deriving DecidableEq, Repr

/-- Modelled from the spec: polling the external source consumes the first
scripted event; an exhausted script means end-of-data forever. -/
def HyperBody.poll : HyperBody → HyperPoll × HyperBody
  | ⟨[], h⟩ => (.ready none, ⟨[], h⟩)
  | ⟨.chunk d :: rest, h⟩ => (.ready (some d), ⟨rest, h⟩)
  | ⟨.pending :: rest, h⟩ => (.notReady, ⟨rest, h⟩)
  | ⟨.fail e :: rest, h⟩ => (.err e, ⟨rest, h⟩)

/-- The external source's length hint. -/
def HyperBody.content_length (b : HyperBody) : Option Nat := b.lengthHint

/-- Modelled from the spec: `hyper::Body::empty()` — zero bytes total, length
known to be 0. -/
def HyperBody.empty : HyperBody := ⟨[], some 0⟩

/-- Modelled from the spec: the Streaming source seeded with buffered bytes
(the `bytes.into()` conversion) — it yields those bytes as one chunk (no chunk
at all when they are empty) followed by end-of-data, and its length hint is
their exact count. -/
def HyperBody.fromBytes (b : Bytes) : HyperBody :=
  ⟨if b.isEmpty then [] else [.chunk b], some b.length⟩

/-- `enum Inner { Reusable(Bytes), Hyper(hyper::Body) }` (body.rs:12-15). -/
inductive Inner
  | reusable (bytes : Bytes)
  | hyper (body : HyperBody)
  deriving DecidableEq, Repr

/-- `pub struct Body { inner: Inner }` (body.rs:8-10). -/
structure Body where
  inner : Inner
  deriving DecidableEq, Repr

/-- `Chunk` wraps a `hyper::Chunk`, i.e. an immutable byte region plus the
cursor of already-consumed leading bytes (the `bytes::Bytes` buffer-cursor
semantics its `Buf` impl delegates to). -/
structure Chunk where
  region : Bytes
  cursor : Nat
  deriving DecidableEq, Repr

/-- `Chunk::from_chunk` / the `Chunk { inner: chunk }` wrapping in `poll`:
a fresh chunk with nothing consumed yet. -/
def Chunk.from_chunk (data : Bytes) : Chunk := ⟨data, 0⟩

/-- `Buf::bytes` for `Chunk` (body.rs:147-149): the unconsumed remainder. -/
def Chunk.bytes (c : Chunk) : Bytes := c.region.drop c.cursor

/-- `Buf::remaining` for `Chunk` (body.rs:151-153). -/
def Chunk.remaining (c : Chunk) : Nat := c.region.length - c.cursor

/-- `Buf::advance` for `Chunk` (body.rs:155-157); advancing past the remaining
bytes is a fatal contract violation in the source (panic), modelled as `none`. -/
def Chunk.advance (c : Chunk) (n : Nat) : Option Chunk :=
  if n ≤ c.remaining then some ⟨c.region, c.cursor + n⟩ else none

/-- `Body::poll_inner` (body.rs:18-35): if already `Hyper`, hand back the
streaming source; if `Reusable`, take the buffered bytes out (through the
empty-placeholder swap), seed a streaming source with them, install it, and
hand that back.  Returns the source to poll together with the mutated body. -/
def Body.poll_inner : Body → HyperBody × Body
  | ⟨.hyper body⟩ => (body, ⟨.hyper body⟩)
  | ⟨.reusable bytes⟩ =>
      (HyperBody.fromBytes bytes, ⟨.hyper (HyperBody.fromBytes bytes)⟩)

/-- `Body::content_length` (body.rs:37-42). -/
def Body.content_length : Body → Option Nat
  | ⟨.reusable bytes⟩ => some bytes.length
  | ⟨.hyper body⟩ => body.content_length

/-- `Body::wrap` (body.rs:45-49). -/
def Body.wrap (body : HyperBody) : Body := ⟨.hyper body⟩

/-- `Body::empty` (body.rs:52-56). -/
def Body.empty : Body := ⟨.hyper HyperBody.empty⟩

/-- `Body::reusable` (body.rs:59-63). -/
def Body.reusable (chunk : Bytes) : Body := ⟨.reusable chunk⟩

/-- `Body::into_hyper` (body.rs:66-71): on `Reusable(chunk)` return the cloned
bytes plus a fresh streaming source seeded from them; on `Hyper(b)` return
`(None, b)`. -/
def Body.into_hyper : Body → Option Bytes × HyperBody
  | ⟨.reusable chunk⟩ => (some chunk, HyperBody.fromBytes chunk)
  | ⟨.hyper b⟩ => (none, b)

/-- Outcome of `<Body as Stream>::poll`: `Ready(Some chunk)` / `Ready(None)` /
`NotReady` / a tagged error result. -/
inductive BodyPoll
  | ready (item : Option Chunk)
  | notReady
  | err (e : Nat)
  deriving DecidableEq, Repr

/-- Whether a poll outcome is the tagged error result. -/
def BodyPoll.isErr : BodyPoll → Bool
  | .err _ => true
  | _ => false

/-- `<Body as Stream>::poll` (body.rs:79-86): delegate to `poll_inner()`'s
source, wrap a produced raw unit into a `Chunk`, pass end-of-data and
not-ready through unchanged, and surface a source failure via `try_!` as the
tagged error result. -/
def Body.poll (b : Body) : BodyPoll × Body :=
  match (b.poll_inner).1.poll with
  | (.ready opt, hb) => (.ready (opt.map Chunk.from_chunk), ⟨.hyper hb⟩)
  | (.notReady, hb) => (.notReady, ⟨.hyper hb⟩)
  | (.err e, hb) => (.err e, ⟨.hyper hb⟩)

/-- `impl From<Bytes> for Body` (body.rs:95-100). -/
def Body.from_bytes (b : Bytes) : Body := Body.reusable b

/-- `impl From<Vec<u8>> for Body` (body.rs:102-107). -/
def Body.from_vec (v : Bytes) : Body := Body.reusable v

/-- `impl From` for a statically-lived byte slice (body.rs:109-114). -/
def Body.from_static_slice (s : Bytes) : Body := Body.reusable s

/-- A string's byte encoding (UTF-8), with no validation by this layer. -/
def stringToBytes (s : String) : Bytes := s.toUTF8.toList.map UInt8.toNat

/-- `impl From<String> for Body` (body.rs:116-121). -/
def Body.from_string (s : String) : Body := Body.reusable (stringToBytes s)

/-- `impl From` for a statically-lived string slice (body.rs:123-128). -/
def Body.from_static_str (s : String) : Body := Body.from_bytes (stringToBytes s)

/-- Whether the body is currently in the Streaming (`Inner::Hyper`) state. -/
def Body.isStreaming : Body → Bool
  | ⟨.hyper _⟩ => true
  | ⟨.reusable _⟩ => false

/-- Iterate `poll` `n` times, keeping only the state. -/
def Body.pollIter : Nat → Body → Body
  | 0, b => b
  | n + 1, b => Body.pollIter n (b.poll).2

/-- Pull a body to completion with the given fuel, collecting the byte content
of each produced chunk in order; `none` when fuel runs out or the source
fails. -/
def drainBody : Nat → Body → Option (List Bytes)
  | 0, _ => none
  | fuel + 1, b =>
    match b.poll with
    | (.ready none, _) => some []
    | (.ready (some c), b') => (drainBody fuel b').map (fun cs => c.bytes :: cs)
    | (.notReady, b') => drainBody fuel b'
    | (.err _, _) => none

/-- Pull an external source to completion with the given fuel, collecting the
produced items in order. -/
def drainHyper : Nat → HyperBody → Option (List Bytes)
  | 0, _ => none
  | fuel + 1, hb =>
    match hb.poll with
    | (.ready none, _) => some []
    | (.ready (some d), hb') => (drainHyper fuel hb').map (fun cs => d :: cs)
    | (.notReady, hb') => drainHyper fuel hb'
    | (.err _, _) => none

/-- Helper: the state coming out of any `poll` is Streaming. -/
theorem poll_snd_isStreaming (b : Body) : ((b.poll).2).isStreaming = true := by
  unfold Body.poll
  split <;> rfl

/-- C1: pulling a buffered body built from `b` to completion — with any fuel
at least 2, covering every number of pull calls including the first one that
performs the Buffered-to-Streaming transition — yields chunks whose in-order
concatenation is exactly `b`: no bytes dropped, duplicated, or reordered. -/
theorem reusable_drain_exact (b : Bytes) (extra : Nat) :
    (drainBody (extra + 1 + 1) (Body.reusable b)).map List.flatten = some b := by
  cases b with
  | nil =>
    simp [drainBody, Body.poll, Body.poll_inner, Body.reusable,
      HyperBody.fromBytes, HyperBody.poll]
  | cons x xs =>
    simp [drainBody, Body.poll, Body.poll_inner, Body.reusable,
      HyperBody.fromBytes, HyperBody.poll, Chunk.from_chunk, Chunk.bytes]

/-- C2: `content_length` of a buffered body built from `b` is exactly
`some b.length`, and of a streaming body it is exactly the underlying
source's length hint (which may be `none`). -/
theorem content_length_spec (b : Bytes) (hb : HyperBody) :
    (Body.reusable b).content_length = some b.length ∧
    (Body.wrap hb).content_length = hb.lengthHint := by
  exact ⟨rfl, rfl⟩

/-- C3: the empty body yields end-of-data on the very first poll, and its
`content_length` is `some 0`. -/
theorem empty_first_poll_eof :
    (Body.empty.poll).1 = BodyPoll.ready none ∧
    Body.empty.content_length = some 0 := by
  exact ⟨rfl, rfl⟩

/-- C4: the internal representation is a one-way two-state machine: after any
positive number of polls, from any starting state, the state is Streaming —
so the first poll transitions Buffered to Streaming and no poll ever brings
the Streaming state back to Buffered. -/
theorem poll_state_one_way (b : Body) (n : Nat) :
    (Body.pollIter (n + 1) b).isStreaming = true := by
  induction n generalizing b with
  | zero => exact poll_snd_isStreaming b
  | succ m ih => exact ih (b.poll).2

/-- C5: `into_hyper` on a still-Buffered body holding `b` returns the buffer
`b` itself together with a streaming handle that, fully pulled, reproduces
exactly `b` (the two results are separate values, so consuming one leaves the
other untouched); on an already-Streaming body it returns `none` and the
existing handle unchanged. -/
theorem into_hyper_spec (b : Bytes) (hb : HyperBody) :
    ((Body.reusable b).into_hyper).1 = some b ∧
    (drainHyper 2 ((Body.reusable b).into_hyper).2).map List.flatten = some b ∧
    (Body.wrap hb).into_hyper = (none, hb) := by
  refine ⟨rfl, ?_, rfl⟩
  cases b with
  | nil => simp [drainHyper, Body.into_hyper, Body.reusable,
      HyperBody.fromBytes, HyperBody.poll]
  | cons x xs => simp [drainHyper, Body.into_hyper, Body.reusable,
      HyperBody.fromBytes, HyperBody.poll]

/-- C7: after a buffered body holding `b` has transitioned to Streaming via a
pull, `content_length` still returns `some b.length`; and whenever a poll has
returned end-of-data, the very next poll also returns end-of-data — data is
never resurrected. -/
theorem transition_length_and_eof_stable (b : Bytes) (body body' : Body)
    (h : body.poll = (BodyPoll.ready none, body')) :
    (((Body.reusable b).poll).2).content_length = some b.length ∧
    (body'.poll).1 = BodyPoll.ready none := by
  constructor
  · cases b with
    | nil => rfl
    | cons x xs =>
      simp [Body.poll, Body.poll_inner, Body.reusable, HyperBody.fromBytes,
        HyperBody.poll, Body.content_length, HyperBody.content_length]
  · obtain ⟨inner⟩ := body
    cases inner with
    | reusable bts =>
      cases bts with
      | nil =>
        simp only [Body.poll, Body.poll_inner, HyperBody.fromBytes,
          HyperBody.poll, List.isEmpty_nil, if_true, Option.map_none,
          Prod.mk.injEq] at h
        rw [← h.2]
        rfl
      | cons x xs =>
        simp [Body.poll, Body.poll_inner, HyperBody.fromBytes,
          HyperBody.poll] at h
    | hyper hb =>
      obtain ⟨events, hint⟩ := hb
      cases events with
      | nil =>
        simp only [Body.poll, Body.poll_inner, HyperBody.poll,
          Option.map_none, Prod.mk.injEq] at h
        rw [← h.2]
        rfl
      | cons ev rest =>
        cases ev <;> simp [Body.poll, Body.poll_inner, HyperBody.poll] at h

/-- C7 witness: instantiated at the buffer `[1, 2]` and a streaming body whose
source is exhausted, for which the first poll returns end-of-data. -/
theorem transition_length_and_eof_stable_witness :
    (((Body.reusable [1, 2]).poll).2).content_length = some 2 ∧
    (Body.empty.poll).1 = BodyPoll.ready none :=
  transition_length_and_eof_stable [1, 2] Body.empty Body.empty (by rfl)

/-- C8: the chunk cursor law — for a chunk with `remaining = r` and any
`n ≤ r`, `advance n` succeeds and produces a chunk with `remaining = r - n`
whose `bytes` are exactly the last `r - n` bytes of the original region;
advancing by more than `remaining` is the fatal contract violation (`none`). -/
theorem chunk_cursor_law (c : Chunk) (n : Nat) (h : n ≤ c.remaining) :
    (∃ c2, c.advance n = some c2 ∧
      c2.remaining = c.remaining - n ∧
      c2.bytes = c.region.drop (c.region.length - (c.remaining - n))) ∧
    (∀ m, c.remaining < m → c.advance m = none) := by
  constructor
  · refine ⟨⟨c.region, c.cursor + n⟩, ?_, ?_, ?_⟩
    · simp [Chunk.advance, h]
    · simp only [Chunk.remaining]
      omega
    · simp only [Chunk.bytes, Chunk.remaining] at h ⊢
      by_cases hc : c.cursor ≤ c.region.length
      · congr 1
        omega
      · rw [List.drop_eq_nil_of_le (by omega), List.drop_eq_nil_of_le (by omega)]
  · intro m hm
    simp [Chunk.advance]
    omega

/-- C8 witness: instantiated at the fresh chunk over `[1, 2, 3]` and `n = 1`. -/
theorem chunk_cursor_law_witness :
    (∃ c2, (Chunk.advance ⟨[1, 2, 3], 0⟩ 1) = some c2 ∧
      c2.remaining = (Chunk.remaining ⟨[1, 2, 3], 0⟩) - 1 ∧
      c2.bytes = List.drop ((List.length [1, 2, 3]) -
        ((Chunk.remaining ⟨[1, 2, 3], 0⟩) - 1)) [1, 2, 3]) ∧
    (∀ m, (Chunk.remaining ⟨[1, 2, 3], 0⟩) < m →
      Chunk.advance ⟨[1, 2, 3], 0⟩ m = none) :=
  chunk_cursor_law ⟨[1, 2, 3], 0⟩ 1 (by decide)

/-- C9: a failure reported by the underlying source is surfaced unchanged by
`poll` as the tagged error result, with the state advanced exactly as the
source left it; a buffered body never produces an error when polled; and the
conversion adapters are total constructors into the Buffered state, so they
produce no error either. -/
theorem error_propagation (hb hb' : HyperBody) (e : Nat)
    (h : hb.poll = (HyperPoll.err e, hb')) :
    (Body.wrap hb).poll = (BodyPoll.err e, Body.wrap hb') ∧
    (∀ bts : Bytes, (((Body.reusable bts).poll).1).isErr = false) ∧
    (∀ v : Bytes, ((Body.from_vec v).poll).1.isErr = false) ∧
    (∀ s : String, ((Body.from_string s).poll).1.isErr = false) := by
  refine ⟨?_, ?_, ?_, ?_⟩
  · simp [Body.poll, Body.poll_inner, Body.wrap, h]
  · intro bts
    cases bts with
    | nil => rfl
    | cons x xs =>
      simp [Body.poll, Body.poll_inner, Body.reusable, HyperBody.fromBytes,
        HyperBody.poll, BodyPoll.isErr]
  · intro v
    cases v with
    | nil => rfl
    | cons x xs =>
      simp [Body.poll, Body.poll_inner, Body.from_vec, Body.reusable,
        HyperBody.fromBytes, HyperBody.poll, BodyPoll.isErr]
  · intro s
    cases hsb : stringToBytes s with
    | nil =>
      simp [Body.poll, Body.poll_inner, Body.from_string, Body.reusable,
        HyperBody.fromBytes, HyperBody.poll, BodyPoll.isErr, hsb]
    | cons x xs =>
      simp [Body.poll, Body.poll_inner, Body.from_string, Body.reusable,
        HyperBody.fromBytes, HyperBody.poll, BodyPoll.isErr, hsb]

/-- C9 witness: instantiated at a source whose first poll fails with error
token 7. -/
theorem error_propagation_witness :
    (Body.wrap ⟨[PollEvent.fail 7], none⟩).poll =
      (BodyPoll.err 7, Body.wrap ⟨[], none⟩) ∧
    (∀ bts : Bytes, (((Body.reusable bts).poll).1).isErr = false) ∧
    (∀ v : Bytes, ((Body.from_vec v).poll).1.isErr = false) ∧
    (∀ s : String, ((Body.from_string s).poll).1.isErr = false) :=
  error_propagation ⟨[PollEvent.fail 7], none⟩ ⟨[], none⟩ 7 (by rfl)

/-- C10: `into_hyper` on the body returned by `empty()`, even before any pull,
returns `none` for the buffer — unlike a body built from an empty byte buffer
via the buffered constructor, which returns `some` of the empty buffer. -/
theorem empty_into_hyper_not_replayable :
    (Body.empty.into_hyper).1 = none ∧
    ((Body.reusable []).into_hyper).1 = some [] := by
  exact ⟨rfl, rfl⟩

end ReqwestBody
